import Mathlib

/-!
Verification of the stormwater-analysis hydraulic core against its
natural-language specification.

The development shallowly embeds the Python sources:

* `pipes/round.py` and `stormwater_analysis/pipes/round.py`: the
  circular-segment flow geometry solver (`calc_f`, `calc_u`, `calc_rh`,
  `calc_velocity`, `min_slope`, `max_slope`, `max_filling`,
  `check_dimensions`) — real-valued functions are embedded over `ℝ`
  (with `Real.arccos`, `Real.sqrt`, `Real.rpow` for `math.acos`,
  `math.sqrt`, `**`), and the iterative `max_slope` search is mirrored by
  an executable integer loop whose comparisons are proved equivalent to
  the real-valued ones (full-bore hydraulic radius is exactly `d / 4`, so
  sixth powers of the velocity are rational).
* `pipes/valid_round.py`: the rule validators.
* `stormwater_analysis/data/data.py`: the per-row enrichment pipeline of
  `ConduitsData` (validity flags written as 0/1 integer columns);
  `pandas` NaN propagation is modelled by `Option` with comparisons
  against a missing value returning `false`.
* `storm_analysis/sa/core/data/data.py`: `DataManager.conduits_coverage_is_valid`.
* `stormwater_analysis/inp_manage/inp.py`: `SwmmModel.overflowing_traces`,
  parametrised by the enumeration order that Python's unordered
  `set` intersection produces.

Python `float` arithmetic is embedded as exact arithmetic (decimal
literals read as the rationals they denote); every numeric comparison
relied on below has margin many orders of magnitude above double
rounding error.  Python exceptions (`ValueError`, `TypeError`,
`ZeroDivisionError`) are modelled with `Except`; dynamically typed
arguments with the small value universe `PyVal`.
-/

namespace Stormwater

/-- Python exception kinds raised by the hydraulic core.  `valueError`
realises what the specification calls a DomainError. -/
inductive PyErr where
  | valueError
  | typeError
  | missingColumn
  deriving DecidableEq, Repr

/-- The `.astype(int)` conversion pandas applies to a boolean column. -/
def boolToInt (b : Bool) : ℤ := if b then 1 else 0

/-- Source `max_velocity()` of `stormwater_analysis/pipes/round.py`:
the maximum stormwater flow velocity, 5 m/s. -/
def max_velocity : ℚ := 5

/-- Source `min_velocity()`: the minimum self-cleansing velocity, 0.7 m/s. -/
def min_velocity : ℚ := 0.7

/-- Source `max_depth()`: the maximum sewer pipe depth, 8 m. -/
def max_depth_value : ℚ := 8

/-- Source `validate_max_velocity` of `pipes/valid_round.py`:
`velocity <= max_velocity()`. -/
def validate_max_velocity (velocity : ℚ) : Bool :=
  velocity ≤ max_velocity

/-- Source `validate_min_velocity` of `pipes/valid_round.py`:
`velocity >= min_velocity()`. -/
def validate_min_velocity (velocity : ℚ) : Bool :=
  velocity ≥ min_velocity

/-- Source `check_dimensions(filling, diameter)` restricted to numeric
arguments: `true` exactly when the function returns `True` rather than
raising `ValueError`. -/
def check_dimensionsQ (filling diameter : ℚ) : Bool :=
  !(filling > diameter) &&
    (0 ≤ filling && filling ≤ 2 && (0.2 ≤ diameter && diameter ≤ 2))

/-- Source `max_filling(diameter)` of `stormwater_analysis/pipes/round.py`
on a numeric argument: `0.827 * diameter` inside the diameter domain,
`ValueError` outside it. -/
def max_fillingQ (diameter : ℚ) : Except PyErr ℚ :=
  if 0.2 ≤ diameter ∧ diameter ≤ 2 then .ok (0.827 * diameter)
  else .error .valueError

/-- Source `validate_filling(filling, diameter)` of `pipes/valid_round.py`:
`filling <= max_filling(diameter)`, propagating `max_filling`'s errors. -/
def validate_fillingE (filling diameter : ℚ) : Except PyErr Bool := do
  let mf ← max_fillingQ diameter
  pure (filling ≤ mf)

/-- Source `DataManager.conduits_coverage_is_valid` of
`storm_analysis/sa/core/data/data.py`, per row: the value written into the
`ValCoverage` column, namely
`((InletGroundCover >= frost_zone) & (OutletGroundCover >= frost_zone)).astype(int)`. -/
def conduits_coverage_is_valid (inletGroundCover outletGroundCover frost_zone : ℚ) : ℤ :=
  boolToInt (decide (inletGroundCover ≥ frost_zone) && decide (outletGroundCover ≥ frost_zone))

/-- C2: for every velocity `v`, `validate_max_velocity v` is true exactly
when `v ≤ 5` m/s; in particular it accepts `5.0` and rejects `5.001`. -/
theorem validate_max_velocity_iff_le_five :
    (∀ v : ℚ, validate_max_velocity v = true ↔ v ≤ 5) ∧
      validate_max_velocity 5 = true ∧ validate_max_velocity 5.001 = false := by
  refine ⟨fun v => ?_, ?_, ?_⟩ <;>
    simp [validate_max_velocity, max_velocity] <;> norm_num

/-- C4: the coverage-validation step writes `ValCoverage = 1` exactly when
both the inlet ground cover and the outlet ground cover are at least the
frost-zone minimum cover depth. -/
theorem conduits_coverage_is_valid_iff :
    ∀ ic oc fz : ℚ,
      conduits_coverage_is_valid ic oc fz = 1 ↔ (fz ≤ ic ∧ fz ≤ oc) := by
  intro ic oc fz
  simp only [conduits_coverage_is_valid, boolToInt, Bool.and_eq_true, decide_eq_true_eq, ge_iff_le]
  split
  · simp_all
  · simp_all

/-! ### The geometry solver of `stormwater_analysis/pipes/round.py` over `ℝ`

`math.sqrt`, `math.acos`, `math.sin`, `math.degrees` and the float power
`**` become `Real.sqrt`, `Real.arccos`, `Real.sin`, multiplication by
`180 / π`, and `Real.rpow`.  The `if check_dimensions(...)` guards of the
source raise on invalid input and otherwise bind `True`; here the pure
numeric bodies are total functions and `check_dimensions` is the
proposition that the guard passes, carried as a hypothesis. -/

open Real

/-- Source `check_dimensions(filling, diameter)` on numeric arguments:
the proposition that the function returns `True` rather than raising
`ValueError` (negations of the two `raise` conditions). -/
def check_dimensions (filling diameter : ℝ) : Prop :=
  filling ≤ diameter ∧ (0 ≤ filling ∧ filling ≤ 2 ∧ 0.2 ≤ diameter ∧ diameter ≤ 2)

/-- Source local `chord = math.sqrt(radius**2 - (filling - radius)**2) * 2`
of `calc_f` and `calc_u`, with `radius = diameter / 2`. -/
noncomputable def chord (filling diameter : ℝ) : ℝ :=
  Real.sqrt ((diameter / 2) ^ 2 - (filling - diameter / 2) ^ 2) * 2

/-- The argument the source passes to `math.acos` in `calc_f` and
`calc_u`: `(radius**2 + radius**2 - chord**2) / (2 * radius**2)`. -/
noncomputable def acos_argument (filling diameter : ℝ) : ℝ :=
  ((diameter / 2) ^ 2 + (diameter / 2) ^ 2 - chord filling diameter ^ 2) /
    (2 * (diameter / 2) ^ 2)

/-- Source local `alpha = math.acos(...)` of `calc_f` (radians). -/
noncomputable def alphaRad (filling diameter : ℝ) : ℝ := Real.arccos (acos_argument filling diameter)

/-- Source local `alpha = math.degrees(math.acos(...))` of `calc_u`. -/
noncomputable def alphaDeg (filling diameter : ℝ) : ℝ := alphaRad filling diameter * (180 / π)

open scoped Classical in
/-- Source `calc_f(filling, diameter)`: wetted cross-section area, with
the source's four-way case split on `filling` against the radius. -/
noncomputable def calc_f (filling diameter : ℝ) : ℝ :=
  if filling > diameter / 2 then
    π * (diameter / 2) ^ 2 -
      (1 / 2 * (alphaRad filling diameter - Real.sin (alphaRad filling diameter)) *
        (diameter / 2) ^ 2)
  else if filling = diameter / 2 then π * (diameter / 2) ^ 2 / 2
  else if filling = diameter then π * (diameter / 2) ^ 2
  else 1 / 2 * (alphaRad filling diameter - Real.sin (alphaRad filling diameter)) *
    (diameter / 2) ^ 2

open scoped Classical in
/-- Source `calc_u(filling, diameter)`: wetted perimeter. -/
noncomputable def calc_u (filling diameter : ℝ) : ℝ :=
  if filling > diameter / 2 then
    2 * π * (diameter / 2) - alphaDeg filling diameter / 360 * 2 * π * (diameter / 2)
  else alphaDeg filling diameter / 360 * 2 * π * (diameter / 2)

open scoped Classical in
/-- Source `calc_rh(filling, diameter)`: `calc_f / calc_u`, with the
`except ZeroDivisionError: return 0` branch modelled by the zero test. -/
noncomputable def calc_rh (filling diameter : ℝ) : ℝ :=
  if calc_u filling diameter = 0 then 0
  else calc_f filling diameter / calc_u filling diameter

/-- Source `calc_velocity(filling, diameter, slope)`: the Manning
formula `1 / 0.013 * calc_rh ** (2 / 3) * (slope / 1000) ** 0.5`. -/
noncomputable def calc_velocity (filling diameter slope : ℝ) : ℝ :=
  1 / 0.013 * calc_rh filling diameter ^ ((2 : ℝ) / 3) * (slope / 1000) ^ (0.5 : ℝ)

/-- Source `min_slope(filling, diameter, theta, g)`:
`4 * (theta / g) * ((diameter / 4) / calc_rh(filling, diameter)) * (1 / diameter)`. -/
noncomputable def min_slope (filling diameter theta g : ℝ) : ℝ :=
  4 * (theta / g) * ((diameter / 4) / calc_rh filling diameter) * (1 / diameter)

/-! ### Basic facts about the geometry solver -/

lemma diameter_pos {filling diameter : ℝ} (h : check_dimensions filling diameter) :
    0 < diameter := by
  have := h.2.2.2.1
  norm_num at this ⊢
  linarith

lemma chord_sq_eq {f d : ℝ} (h0 : 0 ≤ f) (hfd : f ≤ d) :
    chord f d ^ 2 = 4 * ((d / 2) ^ 2 - (f - d / 2) ^ 2) := by
  have hle : (f - d / 2) ^ 2 ≤ (d / 2) ^ 2 := by nlinarith
  unfold chord
  rw [mul_pow, Real.sq_sqrt (by linarith)]
  ring

lemma acos_argument_eq {f d : ℝ} (h0 : 0 ≤ f) (hfd : f ≤ d) (hd : 0 < d) :
    acos_argument f d = (2 * (f - d / 2) ^ 2 - (d / 2) ^ 2) / (d / 2) ^ 2 := by
  unfold acos_argument
  rw [chord_sq_eq h0 hfd]
  have hr : (d / 2) ^ 2 ≠ 0 := by positivity
  field_simp
  ring

/-- C10: for every `(filling, diameter)` accepted by `check_dimensions`,
the argument handed to `math.acos` in `calc_f` and `calc_u` lies in
`[-1, 1]`, so the unguarded `acos` call cannot raise a domain error. -/
theorem acos_argument_mem_Icc :
    ∀ f d : ℝ, check_dimensions f d →
      -1 ≤ acos_argument f d ∧ acos_argument f d ≤ 1 := by
  intro f d h
  have hd : 0 < d := diameter_pos h
  obtain ⟨hfd, h0, -, -, -⟩ := h
  have hr : (0 : ℝ) < (d / 2) ^ 2 := by positivity
  rw [acos_argument_eq h0 hfd hd]
  constructor
  · rw [le_div_iff hr]
    nlinarith [sq_nonneg (f - d / 2)]
  · rw [div_le_one hr]
    nlinarith

/-- Witness for `acos_argument_mem_Icc` at `filling = 0.5`, `diameter = 1`. -/
theorem acos_argument_mem_Icc_witness :
    -1 ≤ acos_argument 0.5 1 ∧ acos_argument 0.5 1 ≤ 1 :=
  acos_argument_mem_Icc 0.5 1 (by norm_num [check_dimensions])

lemma alphaRad_nonneg (f d : ℝ) : 0 ≤ alphaRad f d := Real.arccos_nonneg _

lemma alphaRad_le_pi (f d : ℝ) : alphaRad f d ≤ π := Real.arccos_le_pi _

/-- For positive filling the wetted perimeter `calc_u` is positive:
below the radius because the `acos` argument is strictly below `1`,
above it because the subtracted arc is at most half the circle. -/
lemma calc_u_pos {f d : ℝ} (h : check_dimensions f d) (hf : 0 < f) :
    0 < calc_u f d := by
  obtain ⟨hfd, h0, hf2, hd02, hd2⟩ := h
  have hd : 0 < d := diameter_pos ⟨hfd, h0, hf2, hd02, hd2⟩
  have hr : 0 < d / 2 := by linarith
  have hπ := Real.pi_pos
  have hα0 : 0 ≤ alphaRad f d := alphaRad_nonneg f d
  have hαπ : alphaRad f d ≤ π := alphaRad_le_pi f d
  have hdeg0 : 0 ≤ alphaDeg f d := by
    unfold alphaDeg; positivity
  unfold calc_u
  split
  · have hdeg : alphaDeg f d ≤ 180 := by
      unfold alphaDeg
      calc alphaRad f d * (180 / π) ≤ π * (180 / π) := by
            apply mul_le_mul_of_nonneg_right hαπ; positivity
        _ = 180 := by field_simp
    have h1 : alphaDeg f d / 360 * 2 * π * (d / 2) ≤ 180 / 360 * 2 * π * (d / 2) := by
      gcongr
    have h2 : (180 : ℝ) / 360 * 2 * π * (d / 2) = π * (d / 2) := by ring
    have h3 : 0 < π * (d / 2) := by positivity
    linarith
  · next hle =>
    have hle' : f ≤ d / 2 := not_lt.mp hle
    have harg : acos_argument f d < 1 := by
      rw [acos_argument_eq h0 hfd hd, div_lt_one (by positivity)]
      nlinarith
    have hα : 0 < alphaRad f d := Real.arccos_pos.mpr harg
    have hdegpos : 0 < alphaDeg f d := by
      unfold alphaDeg
      have : 0 < 180 / π := by positivity
      exact mul_pos hα this
    exact mul_pos (mul_pos (mul_pos (div_pos hdegpos (by norm_num)) two_pos) hπ) hr

/-- At zero filling the `acos` argument is exactly `1`, the angle is `0`
and the wetted perimeter vanishes. -/
lemma calc_u_zero {d : ℝ} (h : check_dimensions 0 d) : calc_u 0 d = 0 := by
  have hd : 0 < d := diameter_pos h
  have harg : acos_argument 0 d = 1 := by
    rw [acos_argument_eq le_rfl (by linarith) hd]
    have hr : (d / 2) ^ 2 ≠ 0 := by positivity
    field_simp
    ring
  have hα : alphaRad 0 d = 0 := by
    unfold alphaRad
    rw [harg, Real.arccos_one]
  unfold calc_u
  rw [if_neg (by push_neg; linarith)]
  unfold alphaDeg
  rw [hα]
  ring

/-- C6: on inputs accepted by `check_dimensions` with positive filling,
`calc_rh` is exactly `calc_f / calc_u`; at zero filling it returns `0`
(the `ZeroDivisionError` handler) instead of propagating an error. -/
theorem calc_rh_spec :
    (∀ f d : ℝ, check_dimensions f d → 0 < f →
        calc_rh f d = calc_f f d / calc_u f d) ∧
      (∀ d : ℝ, check_dimensions 0 d → calc_rh 0 d = 0) := by
  constructor
  · intro f d h hf
    unfold calc_rh
    rw [if_neg (calc_u_pos h hf).ne']
  · intro d h
    unfold calc_rh
    rw [if_pos (calc_u_zero h)]

/-- Witness for `calc_rh_spec`: the positive-filling clause at
`(0.5, 1)` and the zero-filling clause at diameter `1`. -/
theorem calc_rh_spec_witness :
    calc_rh 0.5 1 = calc_f 0.5 1 / calc_u 0.5 1 ∧ calc_rh 0 1 = 0 :=
  ⟨calc_rh_spec.1 0.5 1 (by norm_num [check_dimensions]) (by norm_num),
    calc_rh_spec.2 1 (by norm_num [check_dimensions])⟩

/-! ### Monotonicity of the wetted area in the filling -/

/-- The circular-segment profile `x ↦ x - sin x` is monotone. -/
lemma seg_profile_mono : Monotone (fun x : ℝ => x - Real.sin x) := by
  apply monotone_of_deriv_nonneg
  · exact differentiable_id.sub Real.differentiable_sin
  · intro x
    have h1 : HasDerivAt (fun x : ℝ => x - Real.sin x) (1 - Real.cos x) x :=
      (hasDerivAt_id x).sub (Real.hasDerivAt_sin x)
    rw [h1.deriv]
    nlinarith [Real.cos_le_one x]

lemma seg_profile_nonneg {x : ℝ} (hx : 0 ≤ x) : 0 ≤ x - Real.sin x := by
  have := seg_profile_mono hx
  simpa using this

lemma seg_profile_le_pi {x : ℝ} (hx : x ≤ π) : x - Real.sin x ≤ π := by
  have := seg_profile_mono hx
  simpa using this

/-- `Real.arccos` is antitone on all of `ℝ`. -/
lemma arccos_anti {x y : ℝ} (h : x ≤ y) : Real.arccos y ≤ Real.arccos x := by
  rw [Real.arccos_eq_pi_div_two_sub_arcsin, Real.arccos_eq_pi_div_two_sub_arcsin]
  have := Real.monotone_arcsin h
  linarith

/-- Below the radius the subtended angle grows with the filling. -/
lemma alphaRad_mono_low {f₁ f₂ d : ℝ} (h0 : 0 ≤ f₁) (h12 : f₁ ≤ f₂) (h2 : f₂ ≤ d / 2)
    (hd : 0 < d) : alphaRad f₁ d ≤ alphaRad f₂ d := by
  unfold alphaRad
  apply arccos_anti
  rw [acos_argument_eq (h0.trans h12) (by linarith) hd, acos_argument_eq h0 (by linarith) hd]
  rw [div_le_div_iff_of_pos_right (by positivity)]
  nlinarith

/-- Above the radius the subtended angle of the dry segment shrinks as
the filling grows. -/
lemma alphaRad_anti_high {f₁ f₂ d : ℝ} (h1 : d / 2 ≤ f₁) (h12 : f₁ ≤ f₂) (h2 : f₂ ≤ d)
    (hd : 0 < d) : alphaRad f₂ d ≤ alphaRad f₁ d := by
  unfold alphaRad
  apply arccos_anti
  rw [acos_argument_eq (by linarith) (by linarith) hd, acos_argument_eq (by linarith) h2 hd]
  rw [div_le_div_iff_of_pos_right (by positivity)]
  nlinarith

lemma calc_f_at_low {f d : ℝ} (hlt : f < d / 2) (hd : 0 < d) :
    calc_f f d = 1 / 2 * (alphaRad f d - Real.sin (alphaRad f d)) * (d / 2) ^ 2 := by
  unfold calc_f
  rw [if_neg (by linarith), if_neg (by linarith), if_neg (by linarith)]

lemma calc_f_at_half {d : ℝ} (hd : 0 < d) : calc_f (d / 2) d = π * (d / 2) ^ 2 / 2 := by
  unfold calc_f
  rw [if_neg (lt_irrefl (d / 2)), if_pos rfl]

lemma calc_f_at_high {f d : ℝ} (hgt : d / 2 < f) :
    calc_f f d =
      π * (d / 2) ^ 2 -
        1 / 2 * (alphaRad f d - Real.sin (alphaRad f d)) * (d / 2) ^ 2 := by
  unfold calc_f
  rw [if_pos hgt]

lemma calc_f_low_le {f d : ℝ} (hlt : f < d / 2) (hd : 0 < d) :
    calc_f f d ≤ π * (d / 2) ^ 2 / 2 := by
  rw [calc_f_at_low hlt hd]
  have h1 : alphaRad f d - Real.sin (alphaRad f d) ≤ π := seg_profile_le_pi (alphaRad_le_pi f d)
  nlinarith [sq_nonneg (d / 2)]

lemma calc_f_high_ge {f d : ℝ} (hgt : d / 2 < f) :
    π * (d / 2) ^ 2 / 2 ≤ calc_f f d := by
  rw [calc_f_at_high hgt]
  have h1 : alphaRad f d - Real.sin (alphaRad f d) ≤ π := seg_profile_le_pi (alphaRad_le_pi f d)
  nlinarith [sq_nonneg (d / 2)]

/-- C7: for every diameter in `[0.2, 2.0]`, the wetted cross-section
area `calc_f` is non-decreasing in the filling over `[0, diameter]`. -/
theorem calc_f_monotone :
    ∀ d f₁ f₂ : ℝ, 0.2 ≤ d → d ≤ 2 → 0 ≤ f₁ → f₁ ≤ f₂ → f₂ ≤ d →
      calc_f f₁ d ≤ calc_f f₂ d := by
  intro d f₁ f₂ hd02 hd2 h0 h12 h2d
  have hd : 0 < d := by nlinarith
  have hr2 : (0 : ℝ) ≤ (d / 2) ^ 2 := by positivity
  rcases lt_trichotomy f₁ (d / 2) with hf1 | hf1 | hf1
  · rcases lt_trichotomy f₂ (d / 2) with hf2 | hf2 | hf2
    · rw [calc_f_at_low hf1 hd, calc_f_at_low hf2 hd]
      have hα := alphaRad_mono_low h0 h12 hf2.le hd
      have hg := seg_profile_mono hα
      simp only at hg
      nlinarith
    · rw [hf2, calc_f_at_half hd]
      exact calc_f_low_le hf1 hd
    · exact (calc_f_low_le hf1 hd).trans (calc_f_high_ge hf2)
  · rcases eq_or_lt_of_le h12 with rfl | hf2
    · exact le_rfl
    · rw [hf1, calc_f_at_half hd]
      exact calc_f_high_ge (hf1 ▸ hf2)
  · have hf2 : d / 2 < f₂ := lt_of_lt_of_le hf1 h12
    rw [calc_f_at_high hf1, calc_f_at_high hf2]
    have hα := alphaRad_anti_high hf1.le h12 h2d hd
    have hg := seg_profile_mono hα
    simp only at hg
    nlinarith

/-- Witness for `calc_f_monotone` at diameter `1`, fillings `0.3 ≤ 0.8`. -/
theorem calc_f_monotone_witness : calc_f 0.3 1 ≤ calc_f 0.8 1 :=
  calc_f_monotone 1 0.3 0.8 (by norm_num) (by norm_num) (by norm_num) (by norm_num) (by norm_num)

/-! ### Full-bore flow: `calc_rh(d, d) = d / 4` and the Manning velocity -/

/-- At full bore (`filling = diameter`) the `acos` argument is `1`. -/
lemma acos_argument_full {d : ℝ} (hd : 0 < d) : acos_argument d d = 1 := by
  rw [acos_argument_eq hd.le le_rfl hd]
  have hr : (d / 2) ^ 2 ≠ 0 := by positivity
  field_simp
  ring

lemma alphaRad_full {d : ℝ} (hd : 0 < d) : alphaRad d d = 0 := by
  unfold alphaRad
  rw [acos_argument_full hd, Real.arccos_one]

lemma calc_f_full {d : ℝ} (hd : 0 < d) : calc_f d d = π * (d / 2) ^ 2 := by
  unfold calc_f
  rw [if_pos (by linarith : d > d / 2), alphaRad_full hd]
  simp

lemma calc_u_full {d : ℝ} (hd : 0 < d) : calc_u d d = π * d := by
  unfold calc_u
  rw [if_pos (by linarith : d > d / 2)]
  unfold alphaDeg
  rw [alphaRad_full hd]
  ring

/-- At full bore the hydraulic radius is exactly a quarter diameter. -/
lemma calc_rh_full {d : ℝ} (hd : 0 < d) : calc_rh d d = d / 4 := by
  have hu : calc_u d d = π * d := calc_u_full hd
  have hπ := Real.pi_pos
  unfold calc_rh
  rw [hu, if_neg (by positivity), calc_f_full hd]
  field_simp
  ring

/-- The full-bore Manning velocity in closed form. -/
lemma calc_velocity_full {d s : ℝ} (hd : 0 < d) :
    calc_velocity d d s = 1000 / 13 * (d / 4) ^ ((2 : ℝ) / 3) * (s / 1000) ^ (0.5 : ℝ) := by
  unfold calc_velocity
  rw [calc_rh_full hd]
  norm_num

lemma calc_velocity_full_nonneg {d s : ℝ} (hd : 0 < d) (hs : 0 ≤ s) :
    0 ≤ calc_velocity d d s := by
  rw [calc_velocity_full hd]
  have h1 : (0 : ℝ) ≤ (d / 4) ^ ((2 : ℝ) / 3) := Real.rpow_nonneg (by linarith) _
  have h2 : (0 : ℝ) ≤ (s / 1000) ^ (0.5 : ℝ) := Real.rpow_nonneg (by linarith) _
  positivity

/-- Sixth power of the full-bore velocity: the fractional exponents
collapse to integer ones, so the result is rational in `d` and `s`. -/
lemma calc_velocity_full_pow_six {d s : ℝ} (hd : 0 < d) (hs : 0 ≤ s) :
    calc_velocity d d s ^ (6 : ℕ) =
      (1000 / 13) ^ (6 : ℕ) * (d / 4) ^ (4 : ℕ) * (s / 1000) ^ (3 : ℕ) := by
  rw [calc_velocity_full hd, mul_pow, mul_pow]
  have h1 : ((d / 4) ^ ((2 : ℝ) / 3)) ^ (6 : ℕ) = (d / 4) ^ (4 : ℕ) := by
    rw [← Real.rpow_natCast ((d / 4) ^ ((2 : ℝ) / 3)) 6, ← Real.rpow_mul (by linarith)]
    rw [show ((2 : ℝ) / 3 * (6 : ℕ)) = ((4 : ℕ) : ℝ) by norm_num, Real.rpow_natCast]
  have h2 : ((s / 1000) ^ (0.5 : ℝ)) ^ (6 : ℕ) = (s / 1000) ^ (3 : ℕ) := by
    rw [← Real.rpow_natCast ((s / 1000) ^ (0.5 : ℝ)) 6, ← Real.rpow_mul (by linarith)]
    rw [show ((0.5 : ℝ) * (6 : ℕ)) = ((3 : ℕ) : ℝ) by norm_num, Real.rpow_natCast]
  rw [h1, h2]

/-- `min_slope(d, d, 1.5, 9.81)` in closed form (the self-cleansing
start slope of the `max_slope` search). -/
lemma min_slope_full {d : ℝ} (hd : 0 < d) : min_slope d d 1.5 9.81 = 200 / 327 * (1 / d) := by
  unfold min_slope
  rw [calc_rh_full hd]
  rw [div_self (by positivity : (d / 4) ≠ 0)]
  norm_num

/-! ### Python `round(x, 2)` and the `max_slope` loop itself -/

open scoped Classical in
/-- Python's `round(x, 2)` (round half to even) on an exact value. -/
noncomputable def pyRound2 (x : ℝ) : ℝ :=
  ((if x * 100 - ⌊x * 100⌋ < 1 / 2 then ⌊x * 100⌋
    else if 1 / 2 < x * 100 - ⌊x * 100⌋ then ⌊x * 100⌋ + 1
    else if Even ⌊x * 100⌋ then ⌊x * 100⌋ else ⌊x * 100⌋ + 1 : ℤ) : ℝ) / 100

lemma pyRound2_zero : pyRound2 0 = 0 := by
  unfold pyRound2
  norm_num

/-- Characterisation of `round(x, 2) == 5.0`: exactly the closed band
`4.995 ≤ x ≤ 5.005` (both endpoints round to the even hundredth `5.00`). -/
lemma pyRound2_eq_five_iff {x : ℝ} : pyRound2 x = 5 ↔ 4.995 ≤ x ∧ x ≤ 5.005 := by
  have hfl : (⌊x * 100⌋ : ℝ) ≤ x * 100 := Int.floor_le _
  have hfu : x * 100 < ⌊x * 100⌋ + 1 := Int.lt_floor_add_one _
  unfold pyRound2
  constructor
  · intro h
    split_ifs at h with h1 h2 h3
    · have hn : (⌊x * 100⌋ : ℝ) = 500 := by linarith
      rw [hn] at hfl hfu h1
      constructor <;> nlinarith
    · have hn : (⌊x * 100⌋ : ℝ) = 499 := by push_cast at h; linarith
      rw [hn] at hfl hfu h2
      constructor <;> nlinarith
    · have hn : (⌊x * 100⌋ : ℝ) = 500 := by linarith
      rw [hn] at h1 h2
      have hb1 := not_lt.mp h1
      have hb2 := not_lt.mp h2
      constructor <;> nlinarith
    · have hn : (⌊x * 100⌋ : ℝ) = 499 := by push_cast at h; linarith
      rw [hn] at h1 h2
      have hb1 := not_lt.mp h1
      have hb2 := not_lt.mp h2
      constructor <;> nlinarith
  · rintro ⟨hlo, hhi⟩
    have hylo : (499.5 : ℝ) ≤ x * 100 := by nlinarith
    have hyhi : x * 100 ≤ (500.5 : ℝ) := by nlinarith
    have hn_lo : (499 : ℤ) ≤ ⌊x * 100⌋ := Int.le_floor.mpr (by push_cast; linarith)
    have hn_hi : ⌊x * 100⌋ ≤ (500 : ℤ) := by
      have h2 : (⌊x * 100⌋ : ℝ) < 501 := by linarith
      exact_mod_cast Int.lt_add_one_iff.mp (by exact_mod_cast h2)
    rcases (by omega : ⌊x * 100⌋ = 499 ∨ ⌊x * 100⌋ = 500) with h | h
    · rw [h] at hfl hfu ⊢
      rw [if_neg (by push_cast; push_neg; linarith)]
      by_cases hgt : (1 / 2 : ℝ) < x * 100 - ((499 : ℤ) : ℝ)
      · rw [if_pos hgt]
        norm_num
      · rw [if_neg hgt]
        norm_num [Int.even_iff]
    · rw [h] at hfl hfu ⊢
      by_cases hlt : x * 100 - ((500 : ℤ) : ℝ) < 1 / 2
      · rw [if_pos hlt]
        norm_num
      · rw [if_neg hlt, if_neg (by push_cast; push_neg; linarith)]
        norm_num [Int.even_iff]

/-- If `x ≥ 5.01` then `round(x, 2) ≥ 5.01`; in particular it is not `5`. -/
lemma pyRound2_ge {x : ℝ} (h : (5.01 : ℝ) ≤ x) : (5.01 : ℝ) ≤ pyRound2 x := by
  unfold pyRound2
  have h501 : (501 : ℤ) ≤ ⌊x * 100⌋ := by
    apply Int.le_floor.mpr
    push_cast
    nlinarith
  have key : ∀ v : ℤ, (501 : ℤ) ≤ v → (5.01 : ℝ) ≤ (v : ℝ) / 100 := by
    intro v hv
    have : (501 : ℝ) ≤ (v : ℝ) := by exact_mod_cast hv
    norm_num
    linarith
  split_ifs <;> apply key <;> omega

open scoped Classical in
/-- The `while` loop of source `max_slope` (`stormwater_analysis/pipes/round.py`),
with explicit fuel: state variables `start_slope`, `slope`, `v_clc` as in
the source; the loop runs while `round(v_clc, 2) != float(v_max)` with
`v_max = max_velocity() = 5`, and each pass computes
`v_clc = calc_velocity(diameter, diameter, slope)` and then advances by
`start_slope` or halves it and retreats. -/
noncomputable def maxSlopeGo (d : ℝ) : ℕ → ℝ → ℝ → ℝ → Option ℝ
  | 0, _, _, _ => none
  | n + 1, start_slope, slope, v_clc =>
    if pyRound2 v_clc = 5 then some slope
    else
      if calc_velocity d d slope < 5 then
        maxSlopeGo d n start_slope (slope + start_slope) (calc_velocity d d slope)
      else
        maxSlopeGo d n (start_slope / 2) (slope - start_slope / 2) (calc_velocity d d slope)

open scoped Classical in
/-- Source `max_slope(diameter)`: guarded by `check_dimensions(diameter,
diameter)`, starting slope and step at `min_slope(diameter, diameter)`
and `v_clc = 0.0`; `none` means the fuel (300, shown ample for every
admissible diameter) ran out — the source would still be looping. -/
noncomputable def max_slope (d : ℝ) : Option ℝ :=
  if check_dimensions d d then
    maxSlopeGo d 300 (min_slope d d 1.5 9.81) (min_slope d d 1.5 9.81) 0
  else none

/-- Source `max_slopes` lazy table: catalog diameter keys mapped to
`max_slope` of the diameter. -/
noncomputable def max_slopes (key : String) : Option ℝ :=
  if key = "0.2" then max_slope 0.2
  else if key = "0.3" then max_slope 0.3
  else if key = "0.4" then max_slope 0.4
  else if key = "0.5" then max_slope 0.5
  else if key = "0.6" then max_slope 0.6
  else if key = "0.7" then max_slope 0.7
  else if key = "0.8" then max_slope 0.8
  else if key = "0.9" then max_slope 0.9
  else if key = "1.0" then max_slope 1.0
  else if key = "1.2" then max_slope 1.2
  else if key = "1.5" then max_slope 1.5
  else if key = "2.0" then max_slope 2.0
  else none

/-! ### An integer mirror of the `max_slope` loop

For a rational diameter `d = p / q` every slope the loop visits has the
form `200 * m * q / (327 * p * 2 ^ j)` (the step is always
`min_slope / 2 ^ j`), and by `calc_velocity_full_pow_six` the loop's two
velocity comparisons are equivalent to integer comparisons in `(j, m)`.
The mirror loop below works on those integers, so its runs reduce by
`decide`; `maxSlopeGo_eq_mirror` proves it equal to the real-valued
source loop. -/

/-- Denominator of the sixth power of the full-bore velocity at the
mirrored slope: `13^6 * 256 * 1635^3 * q * 2^(3j)`. -/
def mirD (q : ℤ) (j : ℕ) : ℤ := 13 ^ 6 * 256 * 1635 ^ 3 * q * 2 ^ (3 * j)

/-- Numerator of the same sixth power: `10^18 * p * m^3`. -/
def mirV (p m : ℤ) : ℤ := 10 ^ 18 * p * m ^ 3

/-- Mirror of `calc_velocity(d, d, slope) < 5`. -/
def mirLtTarget (p q : ℤ) (j : ℕ) (m : ℤ) : Bool :=
  decide (mirV p m < 5 ^ 6 * mirD q j)

/-- Mirror of `round(calc_velocity(d, d, slope), 2) == 5.0`, i.e.
`(999/200)^6 ≤ v^6 ≤ (1001/200)^6`. -/
def mirRoundTarget (p q : ℤ) (j : ℕ) (m : ℤ) : Bool :=
  decide (999 ^ 6 * mirD q j ≤ mirV p m * 200 ^ 6) &&
    decide (mirV p m * 200 ^ 6 ≤ 1001 ^ 6 * mirD q j)

/-- Mirror of the `while` condition (`w = none` encodes the initial
`v_clc = 0.0`, which does not round to the target). -/
def mirExit (p q : ℤ) (w : Option (ℕ × ℤ)) : Bool :=
  match w with
  | none => false
  | some z => mirRoundTarget p q z.1 z.2

/-- Mirror of the `max_slope` loop on the integer state `(j, m, w)`. -/
def mirLoop (p q : ℤ) : ℕ → ℕ → ℤ → Option (ℕ × ℤ) → Option (ℕ × ℤ)
  | 0, _, _, _ => none
  | n + 1, j, m, w =>
    if mirExit p q w then some (j, m)
    else if mirLtTarget p q j m then mirLoop p q n j (m + 1) (some (j, m))
    else mirLoop p q n (j + 1) (2 * m - 1) (some (j, m))

/-- Mirror of `max_slope(p / q)` from the initial state. -/
def mirMaxSlope (p q : ℤ) : Option (ℕ × ℤ) := mirLoop p q 300 0 1 none

/-- The real slope a mirror state denotes. -/
noncomputable def mirSlope (p q : ℤ) (j : ℕ) (m : ℤ) : ℝ :=
  200 * m * q / (327 * p * 2 ^ j)

/-- The real `v_clc` a mirror probe denotes. -/
noncomputable def mirProbe (p q : ℤ) (d : ℝ) (w : Option (ℕ × ℤ)) : ℝ :=
  match w with
  | none => 0
  | some z => calc_velocity d d (mirSlope p q z.1 z.2)

section MirrorBridge

variable {p q : ℤ} (hp : 0 < p) (hq : 0 < q) {d : ℝ} (hd : d = (p : ℝ) / (q : ℝ))

include hp hq hd

lemma mir_d_pos : 0 < d := by
  have hp' : (0 : ℝ) < p := by exact_mod_cast hp
  have hq' : (0 : ℝ) < q := by exact_mod_cast hq
  rw [hd]; positivity

lemma mirSlope_nonneg {j : ℕ} {m : ℤ} (hm : 1 ≤ m) : 0 ≤ mirSlope p q j m := by
  have hp' : (0 : ℝ) < p := by exact_mod_cast hp
  have hq' : (0 : ℝ) < q := by exact_mod_cast hq
  have hm' : (0 : ℝ) ≤ (m : ℝ) := by exact_mod_cast (by linarith : (0 : ℤ) ≤ m)
  unfold mirSlope
  positivity

/-- The sixth power of the full-bore velocity at a mirrored slope is the
integer quotient `mirV / mirD`. -/
lemma mir_vel_pow6 (j : ℕ) (m : ℤ) (hm : 1 ≤ m) :
    calc_velocity d d (mirSlope p q j m) ^ (6 : ℕ) = (mirV p m : ℝ) / (mirD q j : ℝ) := by
  have hp' : (0 : ℝ) < p := by exact_mod_cast hp
  have hq' : (0 : ℝ) < q := by exact_mod_cast hq
  have h2 : (0 : ℝ) < (2 : ℝ) ^ j := by positivity
  rw [calc_velocity_full_pow_six (mir_d_pos hp hq hd) (mirSlope_nonneg hp hq hd hm)]
  unfold mirSlope mirV mirD
  rw [hd]
  push_cast
  rw [pow_mul']
  field_simp
  ring

lemma mirD_pos (j : ℕ) : (0 : ℝ) < (mirD q j : ℝ) := by
  have hq' : (0 : ℝ) < q := by exact_mod_cast hq
  unfold mirD
  push_cast
  positivity

/-- Bridge for the advance test of the loop. -/
lemma mir_lt_iff (j : ℕ) (m : ℤ) (hm : 1 ≤ m) :
    calc_velocity d d (mirSlope p q j m) < 5 ↔ mirLtTarget p q j m = true := by
  have hv0 : 0 ≤ calc_velocity d d (mirSlope p q j m) :=
    calc_velocity_full_nonneg (mir_d_pos hp hq hd) (mirSlope_nonneg hp hq hd hm)
  have key : calc_velocity d d (mirSlope p q j m) < 5 ↔
      (mirV p m : ℝ) / (mirD q j : ℝ) < (5 : ℝ) ^ (6 : ℕ) := by
    rw [← mir_vel_pow6 hp hq hd j m hm]
    exact (pow_lt_pow_iff_left₀ hv0 (by norm_num) (by norm_num)).symm
  rw [key, div_lt_iff₀ (mirD_pos hp hq hd j)]
  unfold mirLtTarget
  rw [decide_eq_true_iff]
  constructor
  · intro h
    exact_mod_cast h
  · intro h
    push_cast
    exact_mod_cast h

/-- Bridge for the exit test of the loop. -/
lemma mir_round_iff (j : ℕ) (m : ℤ) (hm : 1 ≤ m) :
    pyRound2 (calc_velocity d d (mirSlope p q j m)) = 5 ↔
      mirRoundTarget p q j m = true := by
  have hv0 : 0 ≤ calc_velocity d d (mirSlope p q j m) :=
    calc_velocity_full_nonneg (mir_d_pos hp hq hd) (mirSlope_nonneg hp hq hd hm)
  have hD := mirD_pos hp hq hd j
  rw [pyRound2_eq_five_iff]
  have h6 := mir_vel_pow6 hp hq hd j m hm
  have hlow : (4.995 : ℝ) ≤ calc_velocity d d (mirSlope p q j m) ↔
      (999 ^ 6 * mirD q j : ℤ) ≤ (mirV p m * 200 ^ 6 : ℤ) := by
    rw [show (4.995 : ℝ) = 999 / 200 by norm_num]
    rw [← pow_le_pow_iff_left₀ (by norm_num : (0 : ℝ) ≤ 999 / 200) hv0
      (by norm_num : (6 : ℕ) ≠ 0)]
    rw [h6, div_pow, div_le_div_iff (by norm_num) hD]
    constructor
    · intro h; exact_mod_cast h
    · intro h; exact_mod_cast h
  have hhigh : calc_velocity d d (mirSlope p q j m) ≤ (5.005 : ℝ) ↔
      (mirV p m * 200 ^ 6 : ℤ) ≤ (1001 ^ 6 * mirD q j : ℤ) := by
    rw [show (5.005 : ℝ) = 1001 / 200 by norm_num]
    rw [← pow_le_pow_iff_left₀ hv0 (by norm_num : (0 : ℝ) ≤ 1001 / 200)
      (by norm_num : (6 : ℕ) ≠ 0)]
    rw [h6, div_pow, div_le_div_iff hD (by norm_num)]
    constructor
    · intro h; exact_mod_cast h
    · intro h; exact_mod_cast h
  unfold mirRoundTarget
  rw [Bool.and_eq_true, decide_eq_true_iff, decide_eq_true_iff, hlow, hhigh]

lemma mirSlope_advance (j : ℕ) (m : ℤ) :
    mirSlope p q j m + mirSlope p q j 1 = mirSlope p q j (m + 1) := by
  have hp' : (p : ℝ) ≠ 0 := by exact_mod_cast hp.ne'
  unfold mirSlope
  push_cast
  have h2 : ((2 : ℝ)) ^ j ≠ 0 := by positivity
  field_simp
  ring

lemma mirSlope_half_step (j : ℕ) :
    mirSlope p q j 1 / 2 = mirSlope p q (j + 1) 1 := by
  have hp' : (p : ℝ) ≠ 0 := by exact_mod_cast hp.ne'
  unfold mirSlope
  have h2 : ((2 : ℝ)) ^ j ≠ 0 := by positivity
  rw [pow_succ]
  field_simp
  ring

lemma mirSlope_retreat (j : ℕ) (m : ℤ) :
    mirSlope p q j m - mirSlope p q j 1 / 2 = mirSlope p q (j + 1) (2 * m - 1) := by
  have hp' : (p : ℝ) ≠ 0 := by exact_mod_cast hp.ne'
  unfold mirSlope
  push_cast
  have h2 : ((2 : ℝ)) ^ j ≠ 0 := by positivity
  rw [pow_succ]
  field_simp
  ring

/-- The source loop, run from any mirrored state, agrees with the
integer mirror loop. -/
lemma maxSlopeGo_eq_mirror :
    ∀ (n : ℕ) (j : ℕ) (m : ℤ) (w : Option (ℕ × ℤ)),
      1 ≤ m → (∀ z ∈ w, 1 ≤ z.2) →
      maxSlopeGo d n (mirSlope p q j 1) (mirSlope p q j m) (mirProbe p q d w) =
        Option.map (fun z => mirSlope p q z.1 z.2) (mirLoop p q n j m w) := by
  intro n
  induction n with
  | zero => intro j m w _ _; rfl
  | succ n ih =>
    intro j m w hm hw
    have hexit : pyRound2 (mirProbe p q d w) = 5 ↔ mirExit p q w = true := by
      rcases w with - | z
      · simp only [mirProbe, mirExit, pyRound2_zero]
        norm_num
      · exact mir_round_iff hp hq hd z.1 z.2 (hw z rfl)
    rw [maxSlopeGo, mirLoop]
    by_cases hex : mirExit p q w = true
    · rw [if_pos (hexit.mpr hex), if_pos hex]
      rfl
    · rw [if_neg (fun hc => hex (hexit.mp hc)), if_neg hex]
      by_cases hlt : mirLtTarget p q j m = true
      · rw [if_pos ((mir_lt_iff hp hq hd j m hm).mpr hlt), if_pos hlt]
        rw [mirSlope_advance hp hq hd]
        have hprobe : calc_velocity d d (mirSlope p q j m) =
            mirProbe p q d (some (j, m)) := rfl
        rw [hprobe]
        refine ih j (m + 1) (some (j, m)) (by omega) ?_
        intro z hz
        simp only [Option.mem_def, Option.some.injEq] at hz
        subst hz
        exact hm
      · rw [if_neg (fun hc => hlt ((mir_lt_iff hp hq hd j m hm).mp hc)), if_neg hlt]
        rw [mirSlope_retreat hp hq hd, mirSlope_half_step hp hq hd]
        have hprobe : calc_velocity d d (mirSlope p q j m) =
            mirProbe p q d (some (j, m)) := rfl
        rw [hprobe]
        refine ih (j + 1) (2 * m - 1) (some (j, m)) (by omega) ?_
        intro z hz
        simp only [Option.mem_def, Option.some.injEq] at hz
        subst hz
        exact hm

/-- Source `max_slope` at a rational diameter equals the interpreted
mirror run. -/
lemma max_slope_eq_mirror (hdom : check_dimensions d d) :
    max_slope d = Option.map (fun z => mirSlope p q z.1 z.2) (mirMaxSlope p q) := by
  have hd0 : 0 < d := mir_d_pos hp hq hd
  have hp' : (p : ℝ) ≠ 0 := by exact_mod_cast hp.ne'
  have hq' : (q : ℝ) ≠ 0 := by exact_mod_cast hq.ne'
  unfold max_slope mirMaxSlope
  rw [if_pos hdom]
  have hmin : min_slope d d 1.5 9.81 = mirSlope p q 0 1 := by
    rw [min_slope_full hd0, hd]
    unfold mirSlope
    push_cast
    field_simp
  rw [hmin]
  have h0 : (0 : ℝ) = mirProbe p q d none := rfl
  rw [h0]
  exact maxSlopeGo_eq_mirror hp hq hd 300 0 1 none le_rfl (by simp)

end MirrorBridge

set_option maxRecDepth 8000

/-! ### Evaluating `max_slope` on the diameter catalog

Each evaluation runs the integer mirror by `decide` and transports the
result through `max_slope_eq_mirror`.  The values match the repository's
own test suite (`test_round.py`), e.g. `round(max_slope(0.5), 2) == 67.89`. -/

lemma max_slope_eval_02 : max_slope 0.2 = some (76000 / 327) := by
  have h := @max_slope_eq_mirror 1 5 (by norm_num) (by norm_num) 0.2 (by norm_num)
    (by norm_num [check_dimensions])
  rw [show mirMaxSlope 1 5 = some (0, 76) from by decide] at h
  rw [h, Option.map_some']
  norm_num [mirSlope]

lemma max_slope_eval_03 : max_slope 0.3 = some (44000 / 327) := by
  have h := @max_slope_eq_mirror 3 10 (by norm_num) (by norm_num) 0.3 (by norm_num)
    (by norm_num [check_dimensions])
  rw [show mirMaxSlope 3 10 = some (1, 132) from by decide] at h
  rw [h, Option.map_some']
  norm_num [mirSlope]

lemma max_slope_eval_04 : max_slope 0.4 = some (10000 / 109) := by
  have h := @max_slope_eq_mirror 2 5 (by norm_num) (by norm_num) 0.4 (by norm_num)
    (by norm_num [check_dimensions])
  rw [show mirMaxSlope 2 5 = some (1, 120) from by decide] at h
  rw [h, Option.map_some']
  norm_num [mirSlope]

lemma max_slope_eval_05 : max_slope 0.5 = some (7400 / 109) := by
  have h := @max_slope_eq_mirror 1 2 (by norm_num) (by norm_num) 0.5 (by norm_num)
    (by norm_num [check_dimensions])
  rw [show mirMaxSlope 1 2 = some (2, 222) from by decide] at h
  rw [h, Option.map_some']
  norm_num [mirSlope]

lemma max_slope_eval_06 : max_slope 0.6 = some (53000 / 981) := by
  have h := @max_slope_eq_mirror 3 5 (by norm_num) (by norm_num) 0.6 (by norm_num)
    (by norm_num [check_dimensions])
  rw [show mirMaxSlope 3 5 = some (0, 53) from by decide] at h
  rw [h, Option.map_some']
  norm_num [mirSlope]

lemma max_slope_eval_07 : max_slope 0.7 = some (33000 / 763) := by
  have h := @max_slope_eq_mirror 7 10 (by norm_num) (by norm_num) 0.7 (by norm_num)
    (by norm_num [check_dimensions])
  rw [show mirMaxSlope 7 10 = some (3, 396) from by decide] at h
  rw [h, Option.map_some']
  norm_num [mirSlope]

lemma max_slope_eval_08 : max_slope 0.8 = some (47125 / 1308) := by
  have h := @max_slope_eq_mirror 4 5 (by norm_num) (by norm_num) 0.8 (by norm_num)
    (by norm_num [check_dimensions])
  rw [show mirMaxSlope 4 5 = some (3, 377) from by decide] at h
  rw [h, Option.map_some']
  norm_num [mirSlope]

lemma max_slope_eval_09 : max_slope 0.9 = some (90500 / 2943) := by
  have h := @max_slope_eq_mirror 9 10 (by norm_num) (by norm_num) 0.9 (by norm_num)
    (by norm_num [check_dimensions])
  rw [show mirMaxSlope 9 10 = some (2, 181) from by decide] at h
  rw [h, Option.map_some']
  norm_num [mirSlope]

lemma max_slope_eval_10 : max_slope 1.0 = some (17525 / 654) := by
  have h := @max_slope_eq_mirror 1 1 (by norm_num) (by norm_num) 1.0 (by norm_num)
    (by norm_num [check_dimensions])
  rw [show mirMaxSlope 1 1 = some (4, 701) from by decide] at h
  rw [h, Option.map_some']
  norm_num [mirSlope]

lemma max_slope_eval_12 : max_slope 1.2 = some (20750 / 981) := by
  have h := @max_slope_eq_mirror 6 5 (by norm_num) (by norm_num) 1.2 (by norm_num)
    (by norm_num [check_dimensions])
  rw [show mirMaxSlope 6 5 = some (2, 166) from by decide] at h
  rw [h, Option.map_some']
  norm_num [mirSlope]

lemma max_slope_eval_15 : max_slope 1.5 = some (15400 / 981) := by
  have h := @max_slope_eq_mirror 3 2 (by norm_num) (by norm_num) 1.5 (by norm_num)
    (by norm_num [check_dimensions])
  rw [show mirMaxSlope 3 2 = some (2, 154) from by decide] at h
  rw [h, Option.map_some']
  norm_num [mirSlope]

lemma max_slope_eval_20 : max_slope 2.0 = some (3500 / 327) := by
  have h := @max_slope_eq_mirror 2 1 (by norm_num) (by norm_num) 2.0 (by norm_num)
    (by norm_num [check_dimensions])
  rw [show mirMaxSlope 2 1 = some (2, 140) from by decide] at h
  rw [h, Option.map_some']
  norm_num [mirSlope]


/-! ### Termination of the search on every admissible diameter

For `0.2 ≤ d ≤ 2` the loop terminates well within the 300-iteration
fuel: the full-bore velocity grows monotonically with the slope, so the
slopes whose velocity rounds to the 5 m/s target form a closed band.
The advance phase reaches the band, or oversteps it, in at most 76
constant steps; each overstepping visit halves the step, and after four
halvings the step is smaller than half the band, so the probe cannot
miss it.  The band is expressed through the cube root `velG` of the
reciprocal velocity coefficient `velE`. -/

/-- Coefficient of `slope ^ 3` in the sixth power of the full-bore
velocity: `calc_velocity d d s ^ 6 = velE d * s ^ 3`. -/
noncomputable def velE (d : ℝ) : ℝ :=
  (1000 / 13) ^ (6 : ℕ) * (d / 4) ^ (4 : ℕ) / 1000 ^ (3 : ℕ)

/-- Cube root of `1 / velE d`: the natural slope scale of the velocity
band (the full-bore velocity at slope `c ^ 2 * velG d` is `c`). -/
noncomputable def velG (d : ℝ) : ℝ := (1 / velE d) ^ ((1 : ℝ) / 3)

lemma one_le_two_pow_real (k : ℕ) : (1 : ℝ) ≤ 2 ^ k := by
  induction k with
  | zero => norm_num
  | succ m ih => rw [pow_succ]; nlinarith

lemma two_pow_le_two_pow_real {a b : ℕ} (hab : a ≤ b) : (2 : ℝ) ^ a ≤ 2 ^ b := by
  obtain ⟨k, rfl⟩ := Nat.exists_eq_add_of_le hab
  rw [pow_add]
  nlinarith [one_le_two_pow_real a, one_le_two_pow_real k,
    pow_pos (by norm_num : (0 : ℝ) < 2) a]

section TerminationAll

variable {d : ℝ} (hdlo : (0.2 : ℝ) ≤ d)

include hdlo

lemma velE_pos : (0 : ℝ) < velE d := by
  have hd0 : (0 : ℝ) < d := by linarith
  unfold velE
  positivity

lemma velG_pos : (0 : ℝ) < velG d :=
  Real.rpow_pos_of_pos (one_div_pos.mpr (velE_pos hdlo)) _

lemma velG_cube : velG d ^ (3 : ℕ) = 1 / velE d := by
  have hE := velE_pos hdlo
  unfold velG
  rw [← Real.rpow_natCast ((1 / velE d) ^ ((1 : ℝ) / 3)) 3,
    ← Real.rpow_mul (by positivity : (0 : ℝ) ≤ 1 / velE d)]
  rw [show ((1 : ℝ) / 3 * ((3 : ℕ) : ℝ)) = 1 by norm_num, Real.rpow_one]

lemma vel_pow6 (s : ℝ) (hs : 0 ≤ s) :
    calc_velocity d d s ^ (6 : ℕ) = velE d * s ^ (3 : ℕ) := by
  have hd0 : (0 : ℝ) < d := by linarith
  rw [calc_velocity_full_pow_six hd0 hs]
  unfold velE
  rw [div_pow]
  ring

lemma vel_lt_iff (c s : ℝ) (hc : 0 ≤ c) (hs : 0 ≤ s) :
    calc_velocity d d s < c ↔ s < c ^ (2 : ℕ) * velG d := by
  have hd0 : (0 : ℝ) < d := by linarith
  have hv0 : 0 ≤ calc_velocity d d s := calc_velocity_full_nonneg hd0 hs
  have hE := velE_pos hdlo
  have hG := velG_pos hdlo
  have hcg : (0 : ℝ) ≤ c ^ (2 : ℕ) * velG d := by positivity
  rw [← pow_lt_pow_iff_left₀ hv0 hc (by norm_num : (6 : ℕ) ≠ 0),
    ← pow_lt_pow_iff_left₀ hs hcg (by norm_num : (3 : ℕ) ≠ 0),
    vel_pow6 hdlo s hs, mul_pow, velG_cube hdlo, ← pow_mul,
    show c ^ (2 * 3) = c ^ (6 : ℕ) from by norm_num, mul_one_div,
    lt_div_iff₀ hE]
  constructor
  · intro hh; nlinarith
  · intro hh; nlinarith

lemma vel_le_iff (c s : ℝ) (hc : 0 ≤ c) (hs : 0 ≤ s) :
    calc_velocity d d s ≤ c ↔ s ≤ c ^ (2 : ℕ) * velG d := by
  have hd0 : (0 : ℝ) < d := by linarith
  have hv0 : 0 ≤ calc_velocity d d s := calc_velocity_full_nonneg hd0 hs
  have hE := velE_pos hdlo
  have hG := velG_pos hdlo
  have hcg : (0 : ℝ) ≤ c ^ (2 : ℕ) * velG d := by positivity
  rw [← pow_le_pow_iff_left₀ hv0 hc (by norm_num : (6 : ℕ) ≠ 0),
    ← pow_le_pow_iff_left₀ hs hcg (by norm_num : (3 : ℕ) ≠ 0),
    vel_pow6 hdlo s hs, mul_pow, velG_cube hdlo, ← pow_mul,
    show c ^ (2 * 3) = c ^ (6 : ℕ) from by norm_num, mul_one_div,
    le_div_iff₀ hE]
  constructor
  · intro hh; nlinarith
  · intro hh; nlinarith

lemma vel_ge_iff (c s : ℝ) (hc : 0 ≤ c) (hs : 0 ≤ s) :
    c ≤ calc_velocity d d s ↔ c ^ (2 : ℕ) * velG d ≤ s := by
  rw [← not_lt, ← not_lt]
  exact not_congr (vel_lt_iff hdlo c s hc hs)

lemma vel_lt_five_iff (s : ℝ) (hs : 0 ≤ s) :
    calc_velocity d d s < 5 ↔ s < 25 * velG d := by
  have h := vel_lt_iff hdlo 5 s (by norm_num) hs
  norm_num at h
  exact h

lemma pyRound2_vel_eq_five_iff (s : ℝ) (hs : 0 ≤ s) :
    pyRound2 (calc_velocity d d s) = 5 ↔
      (4.995 : ℝ) ^ (2 : ℕ) * velG d ≤ s ∧ s ≤ (5.005 : ℝ) ^ (2 : ℕ) * velG d := by
  rw [pyRound2_eq_five_iff]
  exact and_congr (vel_ge_iff hdlo 4.995 s (by norm_num) hs)
    (vel_le_iff hdlo 5.005 s (by norm_num) hs)

lemma velG_upper : 25 * velG d ≤ 76 * (200 / 327 * (1 / d)) := by
  have hd0 : (0 : ℝ) < d := by linarith
  have hE := velE_pos hdlo
  have hG := velG_pos hdlo
  have hL : (0 : ℝ) ≤ 25 * velG d := by positivity
  have hR : (0 : ℝ) ≤ 76 * (200 / 327 * (1 / d)) := by positivity
  rw [← pow_le_pow_iff_left₀ hL hR (by norm_num : (3 : ℕ) ≠ 0), mul_pow,
    velG_cube hdlo, mul_one_div,
    show (76 * (200 / 327 * (1 / d))) = 15200 / 327 / d from by ring, div_pow,
    div_le_div_iff₀ hE (by positivity)]
  unfold velE
  nlinarith [mul_le_mul_of_nonneg_right hdlo (by positivity : (0 : ℝ) ≤ d ^ 3),
    pow_nonneg hd0.le 3]

lemma velG_lower (hdhi : d ≤ 2) : 200 / 327 * (1 / d) ≤ 0.7996 * velG d := by
  have hd0 : (0 : ℝ) < d := by linarith
  have hE := velE_pos hdlo
  have hG := velG_pos hdlo
  have hL : (0 : ℝ) ≤ 200 / 327 * (1 / d) := by positivity
  have hR : (0 : ℝ) ≤ 0.7996 * velG d := by positivity
  rw [← pow_le_pow_iff_left₀ hL hR (by norm_num : (3 : ℕ) ≠ 0),
    show (200 / 327 * (1 / d)) = 200 / 327 / d from by ring, div_pow, mul_pow,
    velG_cube hdlo, mul_one_div, div_le_div_iff₀ (by positivity) hE]
  unfold velE
  nlinarith [mul_le_mul_of_nonneg_right hdhi (by positivity : (0 : ℝ) ≤ d ^ 3),
    pow_nonneg hd0.le 3]

/-- Halving phase: once the probe is within one step of the 5 m/s
slope it stays within one (halving) step of it, and after four halvings
the step is below half the rounding band, so at most `2 * c + 2` more
iterations finish the loop when `c` halvings still separate the state
from that point. -/
lemma maxSlopeGo_phase2 (t : ℝ) (ht : 0 < t) (htG : t ≤ 0.7996 * velG d) :
    ∀ c h n : ℕ, ∀ s v : ℝ,
      4 ≤ h + c → 2 * c + 2 ≤ n →
      25 * velG d - t / 2 ^ h ≤ s → s < 25 * velG d + t / 2 ^ h →
      (maxSlopeGo d n (t / 2 ^ h) s v).isSome = true := by
  have hG : (0 : ℝ) < velG d := velG_pos hdlo
  intro c
  induction c with
  | zero =>
    intro h n s v h4 hn hlo hhi
    obtain ⟨n₂, rfl⟩ : ∃ m, n = m + 1 + 1 := ⟨n - 2, by omega⟩
    have h16 : (2 : ℝ) ^ (4 : ℕ) ≤ 2 ^ h := two_pow_le_two_pow_real (by omega)
    have hdiv : t / 2 ^ h ≤ t / 2 ^ (4 : ℕ) := by
      rw [div_le_div_iff₀ (by positivity) (by positivity)]
      exact mul_le_mul_of_nonneg_left h16 ht.le
    have hstep : t / 2 ^ h ≤ 0.049975 * velG d := by
      have h24 : t / 2 ^ (4 : ℕ) = t / 16 := by norm_num
      rw [h24] at hdiv
      linarith
    have hs0 : (0 : ℝ) ≤ s := by nlinarith
    have hband : pyRound2 (calc_velocity d d s) = 5 := by
      rw [pyRound2_vel_eq_five_iff hdlo s hs0]
      constructor
      · nlinarith
      · nlinarith
    rw [maxSlopeGo]
    by_cases hx : pyRound2 v = 5
    · rw [if_pos hx]; rfl
    · rw [if_neg hx]
      split_ifs with hlt
      · rw [maxSlopeGo, if_pos hband]; rfl
      · rw [maxSlopeGo, if_pos hband]; rfl
  | succ c ih =>
    intro h n s v h4 hn hlo hhi
    obtain ⟨n₁, rfl⟩ : ∃ m, n = m + 1 + 1 := ⟨n - 2, by omega⟩
    have htlee : t / 2 ^ h ≤ t := div_le_self ht.le (one_le_two_pow_real h)
    have hs0 : (0 : ℝ) ≤ s := by nlinarith
    have hsplit : t / 2 ^ h / 2 = t / 2 ^ (h + 1) := by
      rw [div_div, ← pow_succ]
    have hhalf : t / 2 ^ (h + 1) + t / 2 ^ (h + 1) = t / 2 ^ h := by
      rw [← hsplit]; ring
    rw [maxSlopeGo]
    by_cases hx : pyRound2 v = 5
    · rw [if_pos hx]; rfl
    · rw [if_neg hx]
      by_cases hlt : calc_velocity d d s < 5
      · rw [if_pos hlt]
        have hsl : s < 25 * velG d := (vel_lt_five_iff hdlo s hs0).mp hlt
        have hge : 25 * velG d ≤ s + t / 2 ^ h := by linarith
        have hs1 : (0 : ℝ) ≤ s + t / 2 ^ h := by
          have hq : (0 : ℝ) ≤ t / 2 ^ h := by positivity
          linarith
        rw [maxSlopeGo]
        by_cases hx2 : pyRound2 (calc_velocity d d s) = 5
        · rw [if_pos hx2]; rfl
        · rw [if_neg hx2]
          have hnlt : ¬ calc_velocity d d (s + t / 2 ^ h) < 5 := by
            rw [vel_lt_five_iff hdlo _ hs1]
            push_neg
            linarith
          rw [if_neg hnlt, hsplit]
          refine ih (h + 1) n₁ _ _ (by omega) (by omega) ?_ ?_
          · linarith
          · linarith
      · rw [if_neg hlt]
        have hsge : 25 * velG d ≤ s :=
          not_lt.mp fun hc => hlt ((vel_lt_five_iff hdlo s hs0).mpr hc)
        rw [hsplit]
        refine ih (h + 1) (n₁ + 1) _ _ (by omega) (by omega) ?_ ?_
        · linarith
        · linarith

/-- Entry to the halving phase at full step. -/
lemma maxSlopeGo_phase2_top (t : ℝ) (ht : 0 < t) (htG : t ≤ 0.7996 * velG d)
    (n : ℕ) (s v : ℝ) (hn : 10 ≤ n)
    (hlo : 25 * velG d - t ≤ s) (hhi : s < 25 * velG d + t) :
    (maxSlopeGo d n t s v).isSome = true := by
  have h20 : t / 2 ^ (0 : ℕ) = t := by norm_num
  have h := maxSlopeGo_phase2 hdlo t ht htG 4 0 n s v (by norm_num) (by omega)
    (by rw [h20]; exact hlo) (by rw [h20]; exact hhi)
  rwa [h20] at h

/-- Entry to the halving phase after the first halving. -/
lemma maxSlopeGo_phase2_half (t : ℝ) (ht : 0 < t) (htG : t ≤ 0.7996 * velG d)
    (n : ℕ) (s v : ℝ) (hn : 8 ≤ n)
    (hlo : 25 * velG d - t / 2 ≤ s) (hhi : s < 25 * velG d + t / 2) :
    (maxSlopeGo d n (t / 2) s v).isSome = true := by
  have h21 : t / 2 ^ (1 : ℕ) = t / 2 := by norm_num
  have h := maxSlopeGo_phase2 hdlo t ht htG 3 1 n s v (by norm_num) (by omega)
    (by rw [h21]; exact hlo) (by rw [h21]; exact hhi)
  rwa [h21] at h

/-- Advance phase: from any slope at most `M` constant steps below the
5 m/s slope, the loop finishes within `M + 11` iterations. -/
lemma maxSlopeGo_phase1 (t : ℝ) (ht : 0 < t) (htG : t ≤ 0.7996 * velG d) :
    ∀ M n : ℕ, ∀ s v : ℝ,
      0 ≤ s → s ≤ 25 * velG d → 25 * velG d ≤ s + (M : ℝ) * t →
      M + 11 ≤ n →
      (maxSlopeGo d n t s v).isSome = true := by
  have hG : (0 : ℝ) < velG d := velG_pos hdlo
  intro M
  induction M with
  | zero =>
    intro n s v hs0 hsle hge hn
    push_cast at hge
    obtain ⟨n₁, rfl⟩ : ∃ m, n = m + 1 := ⟨n - 1, by omega⟩
    rw [maxSlopeGo]
    by_cases hx : pyRound2 v = 5
    · rw [if_pos hx]; rfl
    · rw [if_neg hx]
      have hnlt : ¬ calc_velocity d d s < 5 := by
        rw [vel_lt_five_iff hdlo s hs0]
        push_neg
        linarith
      rw [if_neg hnlt]
      exact maxSlopeGo_phase2_half hdlo t ht htG n₁ _ _ (by omega)
        (by linarith) (by linarith)
  | succ M ih =>
    intro n s v hs0 hsle hge hn
    push_cast at hge
    obtain ⟨n₁, rfl⟩ : ∃ m, n = m + 1 := ⟨n - 1, by omega⟩
    rw [maxSlopeGo]
    by_cases hx : pyRound2 v = 5
    · rw [if_pos hx]; rfl
    · rw [if_neg hx]
      by_cases hlt : calc_velocity d d s < 5
      · rw [if_pos hlt]
        have hsl : s < 25 * velG d := (vel_lt_five_iff hdlo s hs0).mp hlt
        by_cases hcase : s + t ≤ 25 * velG d
        · exact ih n₁ (s + t) _ (by linarith) hcase (by linarith) (by omega)
        · push_neg at hcase
          exact maxSlopeGo_phase2_top hdlo t ht htG n₁ _ _ (by omega)
            (by linarith) (by linarith)
      · rw [if_neg hlt]
        have hsge : 25 * velG d ≤ s :=
          not_lt.mp fun hc => hlt ((vel_lt_five_iff hdlo s hs0).mpr hc)
        exact maxSlopeGo_phase2_half hdlo t ht htG n₁ _ _ (by omega)
          (by linarith) (by linarith)

end TerminationAll

/-- On every admissible diameter the fuelled search returns. -/
lemma max_slope_isSome {d : ℝ} (hdom : check_dimensions d d) :
    (max_slope d).isSome = true := by
  have hd0 : 0 < d := diameter_pos hdom
  have hdlo : (0.2 : ℝ) ≤ d := hdom.2.2.2.1
  have hdhi : d ≤ 2 := hdom.2.2.2.2
  have hG : (0 : ℝ) < velG d := velG_pos hdlo
  have ht : (0 : ℝ) < 200 / 327 * (1 / d) := by positivity
  have htG := velG_lower hdlo hdhi
  have hup := velG_upper hdlo
  unfold max_slope
  rw [if_pos hdom, min_slope_full hd0]
  refine maxSlopeGo_phase1 hdlo _ ht htG 76 300 _ 0 ht.le (by linarith) ?_ (by omega)
  linarith

/-! ### What the returned slope satisfies -/

/-- Whenever the loop returns, the returned slope is one final step past
the last probed slope, and it is the last probe's velocity — not the
returned slope's — that rounds to the 5 m/s target. -/
lemma maxSlopeGo_overshoot (d : ℝ) :
    ∀ (n : ℕ) (ss s v out : ℝ), 0 < ss →
      (v = 0 ∨ ∃ sp, v = calc_velocity d d sp ∧ (s = sp + ss ∨ s = sp - ss)) →
      maxSlopeGo d n ss s v = some out →
      ∃ probe step : ℝ, pyRound2 (calc_velocity d d probe) = 5 ∧ 0 < step ∧
        (out = probe + step ∨ out = probe - step) := by
  intro n
  induction n with
  | zero =>
    intro ss s v out _ _ h
    exact absurd h (by simp [maxSlopeGo])
  | succ n ih =>
    intro ss s v out hss hinv h
    rw [maxSlopeGo] at h
    by_cases hex : pyRound2 v = 5
    · rw [if_pos hex] at h
      injection h with h'
      subst h'
      rcases hinv with rfl | ⟨sp, rfl, hrel⟩
      · rw [pyRound2_zero] at hex
        norm_num at hex
      · exact ⟨sp, ss, hex, hss, hrel⟩
    · rw [if_neg hex] at h
      by_cases hlt : calc_velocity d d s < 5
      · rw [if_pos hlt] at h
        exact ih ss (s + ss) _ out hss (Or.inr ⟨s, rfl, Or.inl rfl⟩) h
      · rw [if_neg hlt] at h
        exact ih (ss / 2) (s - ss / 2) _ out (by linarith)
          (Or.inr ⟨s, rfl, Or.inr rfl⟩) h

/-- C3 counterexample at diameter 0.5: the search returns `7400 / 109 ≈
67.8899`, but the velocity at that returned slope is ≈ 5.0108, which
rounds to `5.01`, not to the target `5.00`. -/
theorem max_slope_returned_velocity_not_target :
    max_slope 0.5 = some (7400 / 109) ∧
      pyRound2 (calc_velocity 0.5 0.5 (7400 / 109)) ≠ 5 := by
  refine ⟨max_slope_eval_05, ?_⟩
  have hd0 : (0 : ℝ) < 0.5 := by norm_num
  have hs : (0 : ℝ) ≤ 7400 / 109 := by norm_num
  have h6 : calc_velocity 0.5 0.5 (7400 / 109) ^ (6 : ℕ) =
      (1000 / 13) ^ (6 : ℕ) * ((0.5 : ℝ) / 4) ^ (4 : ℕ) * (((7400 : ℝ) / 109) / 1000) ^ (3 : ℕ) :=
    calc_velocity_full_pow_six hd0 hs
  have hv0 : 0 ≤ calc_velocity 0.5 0.5 (7400 / 109) := calc_velocity_full_nonneg hd0 hs
  have hle : ((5.01 : ℝ)) ^ (6 : ℕ) ≤ calc_velocity 0.5 0.5 (7400 / 109) ^ (6 : ℕ) := by
    rw [h6]
    norm_num
  have hge : (5.01 : ℝ) ≤ calc_velocity 0.5 0.5 (7400 / 109) :=
    (pow_le_pow_iff_left₀ (by norm_num) hv0 (by norm_num : (6 : ℕ) ≠ 0)).mp hle
  have hr := pyRound2_ge hge
  intro heq
  rw [heq] at hr
  norm_num at hr

/-- C3 amended: on every admissible diameter — any real `d` accepted by
`check_dimensions(d, d)`, i.e. `0.2 ≤ d ≤ 2` — the iterative search
terminates; and whenever `max_slope` returns a slope, that slope is one
final (positive) step away from the last probed slope, whose velocity —
not the returned slope's — rounds to the 5 m/s target. -/
theorem max_slope_terminates_and_overshoots :
    (∀ d : ℝ, check_dimensions d d → (max_slope d).isSome = true) ∧
    ∀ d out : ℝ, max_slope d = some out →
      ∃ probe step : ℝ, pyRound2 (calc_velocity d d probe) = 5 ∧ 0 < step ∧
        (out = probe + step ∨ out = probe - step) := by
  constructor
  · exact fun d hdom => max_slope_isSome hdom
  · intro d out h
    unfold max_slope at h
    split at h
    case isTrue hdom =>
      have hd0 : 0 < d := diameter_pos hdom
      have hmin : 0 < min_slope d d 1.5 9.81 := by
        rw [min_slope_full hd0]
        positivity
      exact maxSlopeGo_overshoot d 300 _ _ _ out hmin (Or.inl rfl) h
    case isFalse => exact absurd h (by simp)

/-- Witness for `max_slope_terminates_and_overshoots`: its termination
clause at diameter 0.5, and its overshoot clause at the concrete run
returning `7400 / 109`. -/
theorem max_slope_terminates_and_overshoots_witness :
    (max_slope 0.5).isSome = true ∧
      ∃ probe step : ℝ, pyRound2 (calc_velocity 0.5 0.5 probe) = 5 ∧ 0 < step ∧
        ((7400 : ℝ) / 109 = probe + step ∨ (7400 : ℝ) / 109 = probe - step) :=
  ⟨max_slope_terminates_and_overshoots.1 0.5 (by norm_num [check_dimensions]),
    max_slope_terminates_and_overshoots.2 0.5 (7400 / 109) max_slope_eval_05⟩

/-- C5: the memoized table entry for diameter 0.5 m is `7400 / 109`
per-mille, which rounds to `67.89` at two decimals. -/
theorem max_slopes_table_at_05 :
    max_slopes "0.5" = some (7400 / 109) ∧ pyRound2 (7400 / 109) = 67.89 := by
  constructor
  · unfold max_slopes
    rw [if_neg (by decide), if_neg (by decide), if_neg (by decide), if_pos rfl]
    exact max_slope_eval_05
  · have hfloor : ⌊((7400 : ℝ) / 109) * 100⌋ = 6788 := by
      rw [Int.floor_eq_iff]
      push_cast
      norm_num
    unfold pyRound2
    rw [hfloor]
    rw [if_neg (by push_cast; norm_num), if_pos (by push_cast; norm_num)]
    norm_num

/-! ### Dynamically-typed arguments and the raised errors (`round.py`)

`check_dimensions` and `max_filling` first test `isinstance(x, (int,
float))` and raise `TypeError` otherwise, then raise `ValueError` on
domain violations.  The argument universe `PyVal` models the two kinds
of Python value the tests exercise.  All these functions are pure:
they touch no state, so a raised error cannot leave anything modified. -/

/-- A Python value: a number or a string. -/
inductive PyVal where
  | num (x : ℚ)
  | str (s : String)
  deriving DecidableEq, Repr

/-- Source `check_dimensions` with its dynamic type checks: `TypeError`
for a non-numeric filling, then for a non-numeric diameter, then
`ValueError` for `filling > diameter`, then `ValueError` for values out
of bounds, else `True`. -/
def check_dimensionsP (filling diameter : PyVal) : Except PyErr Bool :=
  match filling with
  | .str _ => .error .typeError
  | .num f =>
    match diameter with
    | .str _ => .error .typeError
    | .num d =>
      if f > d then .error .valueError
      else if ¬(0 ≤ f ∧ f ≤ 2 ∧ 0.2 ≤ d ∧ d ≤ 2) then .error .valueError
      else .ok true

/-- Source `max_filling` with its dynamic type check. -/
def max_fillingP (diameter : PyVal) : Except PyErr ℚ :=
  match diameter with
  | .num d => if 0.2 ≤ d ∧ d ≤ 2 then .ok (0.827 * d) else .error .valueError
  | .str _ => .error .typeError

/-- Source `calc_f` behind its `check_dimensions` guard: any error of
the guard propagates before the geometry is touched. -/
noncomputable def calc_fP (filling diameter : PyVal) : Except PyErr ℝ := do
  let _ ← check_dimensionsP filling diameter
  match filling, diameter with
  | .num f, .num d => pure (calc_f f d)
  | _, _ => .error .typeError

/-- C8: `calc_f(1.1, 1.0)` raises a domain error (`ValueError`),
`max_filling(3.0)` raises a domain error, and `max_filling("x")` raises
a `TypeError`; the embedding is of pure functions, so no state exists
that an error path could have modified. -/
theorem round_error_cases :
    calc_fP (.num 1.1) (.num 1) = .error .valueError ∧
      max_fillingP (.num 3) = .error .valueError ∧
      max_fillingP (.str "x") = .error .typeError := by
  refine ⟨?_, ?_, rfl⟩
  · have hchk : check_dimensionsP (.num 1.1) (.num 1) = .error .valueError := by
      norm_num [check_dimensionsP]
    unfold calc_fP
    rw [hchk]
    rfl
  · norm_num [max_fillingP]

/-! ### The trace overflow window (`stormwater_analysis/inp_manage/inp.py`)

`overflowing_traces` computes, per outfall, `overlapping_conduits =
list(set(trace) & set(overflowing))` — whose enumeration order Python
does not define — and then slices the trace from the position of
`overlapping_conduits[0]` to the position of `overlapping_conduits[-1]`.
The embedding takes the enumeration as a parameter; `SetEnumOk` states
that a list is a legitimate enumeration of the intersection. -/

/-- Python's `lst[a:b]` on a list of conduit ids (`0 ≤ a, b`). -/
def pySlice (l : List String) (a b : ℕ) : List String := (l.drop a).take (b - a)

/-- Python's `lst.index(x)`: position of the first occurrence (callers
below only use it on members, where Python would not raise). -/
def pyIndex (l : List String) (x : String) : ℕ :=
  match l with
  | [] => 0
  | y :: ys => if y = x then 0 else pyIndex ys x + 1

/-- `inter` is a possible value of `list(set(a) & set(b))`: duplicate-free
and holding exactly the common elements, in some order. -/
def SetEnumOk (inter a b : List String) : Prop :=
  inter.Nodup ∧ ∀ x, x ∈ inter ↔ (x ∈ a ∧ x ∈ b)

/-- Source `SwmmModel.overflowing_traces`, parametrised by the
set-intersection enumeration `enum`: for each `(outfall, trace)` pair,
if the enumeration of `set(trace) & set(overflowing)` is non-empty,
record the slice of the trace from the position of its first element to
the position of its last element, inclusive. -/
def overflowing_traces (enum : List String → List String → List String)
    (traces : List (String × List String)) (overflowing : List String) :
    List (String × List String) :=
  traces.foldr
    (fun ot acc =>
      match enum ot.2 overflowing with
      | [] => acc
      | x :: xs =>
        (ot.1, pySlice ot.2 (pyIndex ot.2 x) (pyIndex ot.2 (xs.getLastD x) + 1)) :: acc)
    []

/-- C1 (failing run): with outfall `O1`, trace `[C1, C2]` and both
conduits overflowing, the set intersection may legitimately enumerate as
`[C2, C1]`; the source then slices `trace[1:1] = []` and records an empty
window, not the min-to-max slice `[C1, C2]` the claim describes. -/
theorem overflowing_traces_set_order_dependent :
    SetEnumOk ["C2", "C1"] ["C1", "C2"] ["C1", "C2"] ∧
      overflowing_traces (fun _ _ => ["C2", "C1"]) [("O1", ["C1", "C2"])] ["C1", "C2"] =
        [("O1", [])] ∧
      ([("O1", ([] : List String))] : List (String × List String)) ≠
        [("O1", ["C1", "C2"])] := by
  refine ⟨⟨by decide, fun x => ?_⟩, by decide, by decide⟩
  simp only [List.mem_cons, List.not_mem_nil, or_false]
  tauto

/-! ### The per-row enrichment pipeline of `ConduitsData`
(`stormwater_analysis/data/data.py`)

Each step is the per-row effect of the corresponding dataframe method.
A pandas value that may be NaN is an `Option ℚ`; `oLe` is a pandas
comparison, which is `False` whenever either side is missing.  The
columns holding the validity flags are `Option ℤ` (`none` before the
writing step runs). -/

/-- One row of the conduits dataframe: the input columns the pipeline
reads and the derived columns it writes. -/
structure ConduitRow where
  geom1 : ℚ
  maxDPerc : ℚ
  maxV : ℚ
  slopeFtPerFt : ℚ
  length : ℚ
  inletNode : String
  outletNode : String
  inletNodeInvert : ℚ
  outletNodeInvert : ℚ
  filling : Option ℚ := none
  valMaxFill : Option ℤ := none
  valMaxV : Option ℤ := none
  valMinV : Option ℤ := none
  valMaxSlope : Option ℤ := none
  valMinSlope : Option ℤ := none
  slopePerMile : Option ℚ := none
  inletMaxDepth : Option ℚ := none
  outletMaxDepth : Option ℚ := none
  inletGroundCover : Option ℚ := none
  outletGroundCover : Option ℚ := none
  valDepth : Option ℤ := none
  valCoverage : Option ℤ := none
  deriving DecidableEq, Repr

/-- A pandas `<=` comparison: `False` when either side is NaN/missing. -/
def oLe (a b : Option ℚ) : Bool :=
  match a, b with
  | some x, some y => decide (x ≤ y)
  | _, _ => false

/-- A validity flag is written as exactly `0` or `1`. -/
def isBin (v : Option ℤ) : Prop := v = some 0 ∨ v = some 1

lemma isBin_boolToInt (b : Bool) : isBin (some (boolToInt b)) := by
  cases b
  · exact Or.inl rfl
  · exact Or.inr rfl

/-- Source `ConduitsData.calculate_conduit_filling`:
`Filling = MaxDPerc * Geom1`. -/
def calculate_conduit_filling (r : ConduitRow) : ConduitRow :=
  { r with filling := some (r.maxDPerc * r.geom1) }

/-- Source `ConduitsData.filling_is_valid`:
`ValMaxFill = validate_filling(Filling, Geom1).astype(int)`; a missing
`Filling` column fails fast, and `validate_filling`'s errors propagate. -/
def filling_is_valid (r : ConduitRow) : Except PyErr ConduitRow :=
  match r.filling with
  | none => .error .missingColumn
  | some f => do
    let b ← validate_fillingE f r.geom1
    pure { r with valMaxFill := some (boolToInt b) }

/-- Source `ConduitsData.velocity_is_valid`: `ValMaxV`, `ValMinV` from
`validate_max_velocity(MaxV)` and `validate_min_velocity(MaxV)`. -/
def velocity_is_valid (r : ConduitRow) : ConduitRow :=
  { r with valMaxV := some (boolToInt (validate_max_velocity r.maxV)),
           valMinV := some (boolToInt (validate_min_velocity r.maxV)) }

/-- The table value for one catalog diameter `p / q`, read off the
integer mirror of the `max_slope` search. -/
def mirTableVal (p q : ℤ) : Option ℚ :=
  (mirMaxSlope p q).map (fun z => 200 * z.2 * q / (327 * p * 2 ^ z.1))

/-- Modelled from the spec: the per-diameter maximum-slope table
`max_slope_table()` — `validate_max_slope`'s source file is absent from
`src/` (`stormwater_analysis/pipes/valid_round.py` is only imported and
tested there).  Per spec §4.4 the table maps each diameter of the fixed
catalog `{0.2, 0.3, …, 1.0, 1.2, 1.5, 2.0}` to its solved `max_slope`. -/
def max_slope_tableQ (d : ℚ) : Option ℚ :=
  if d = 1 / 5 then mirTableVal 1 5
  else if d = 3 / 10 then mirTableVal 3 10
  else if d = 2 / 5 then mirTableVal 2 5
  else if d = 1 / 2 then mirTableVal 1 2
  else if d = 3 / 5 then mirTableVal 3 5
  else if d = 7 / 10 then mirTableVal 7 10
  else if d = 4 / 5 then mirTableVal 4 5
  else if d = 9 / 10 then mirTableVal 9 10
  else if d = 1 then mirTableVal 1 1
  else if d = 6 / 5 then mirTableVal 6 5
  else if d = 3 / 2 then mirTableVal 3 2
  else if d = 2 then mirTableVal 2 1
  else none

/-- Modelled from the spec: `valid_max_slope(slope, diameter)` =
`slope ≤ max_slope_table()[diameter]`, failing with a DomainError when
the slope is not positive or the diameter is not in the catalog
(spec §4.3). -/
def validate_max_slopeE (slope diameter : ℚ) : Except PyErr Bool :=
  if slope ≤ 0 then .error .valueError
  else
    match max_slope_tableQ diameter with
    | none => .error .valueError
    | some t => .ok (slope ≤ t)

/-- Source `ConduitsData.slopes_is_valid`: `ValMaxSlope` from
`validate_max_slope(SlopeFtPerFt * 1000, Geom1)` and `ValMinSlope` from
`validate_min_slope(SlopeFtPerFt * 1000, Filling, Geom1)`.
`validate_min_slope` is also absent from `src/` (its comparison needs
the real-valued `min_slope`), so the pipeline is parametric in it; the
flag layout does not depend on it. -/
def slopes_is_valid (vminSlope : ℚ → ℚ → ℚ → Except PyErr Bool) (r : ConduitRow) :
    Except PyErr ConduitRow :=
  match r.filling with
  | none => .error .missingColumn
  | some f => do
    let b₁ ← validate_max_slopeE (r.slopeFtPerFt * 1000) r.geom1
    let b₂ ← vminSlope (r.slopeFtPerFt * 1000) f r.geom1
    pure { r with valMaxSlope := some (boolToInt b₁), valMinSlope := some (boolToInt b₂) }

/-- Source `ConduitsData.max_depth`: join `MaxDepth` from the node table
along the inlet and outlet foreign keys; a missing node yields NaN. -/
def conduits_max_depth (nodes : List (String × ℚ)) (r : ConduitRow) : ConduitRow :=
  { r with inletMaxDepth := List.lookup r.inletNode nodes,
           outletMaxDepth := List.lookup r.outletNode nodes }

/-- Source `ConduitsData.slope_per_mile`: `SlopePerMile = SlopeFtPerFt * 1000`. -/
def slope_per_mile (r : ConduitRow) : ConduitRow :=
  { r with slopePerMile := some (r.slopeFtPerFt * 1000) }

/-- Source `ConduitsData.calculate_max_depth`: rows whose
`OutletMaxDepth` is NaN get `InletMaxDepth - Length * SlopeFtPerFt`
(still NaN when the inlet depth is itself missing). -/
def calculate_max_depth (r : ConduitRow) : ConduitRow :=
  match r.outletMaxDepth, r.inletMaxDepth with
  | none, some im => { r with outletMaxDepth := some (im - r.length * r.slopeFtPerFt) }
  | _, _ => r

/-- Source `ConduitsData.inlet_ground_cover`:
`InletGroundCover = InletNodeInvert - InletMaxDepth` and likewise for
the outlet. -/
def inlet_ground_cover (r : ConduitRow) : ConduitRow :=
  { r with inletGroundCover := r.inletMaxDepth.map (fun md => r.inletNodeInvert - md),
           outletGroundCover := r.outletMaxDepth.map (fun md => r.outletNodeInvert - md) }

/-- Source `ConduitsData.depth_is_valid`: `ValDepth` is the conjunction
`(InletNodeInvert - max_depth_value ≤ InletGroundCover) &
(OutletNodeInvert - max_depth_value ≤ OutletGroundCover)`, as `0` / `1`. -/
def depth_is_valid (r : ConduitRow) : ConduitRow :=
  { r with valDepth := some (boolToInt
      (oLe (some (r.inletNodeInvert - max_depth_value)) r.inletGroundCover &&
        oLe (some (r.outletNodeInvert - max_depth_value)) r.outletGroundCover)) }

/-- Source `ConduitsData.coverage_is_valid`: `ValCoverage` is the
conjunction `(InletGroundCover ≤ InletNodeInvert - frost_zone) &
(OutletGroundCover ≤ OutletNodeInvert - frost_zone)`, as `0` / `1`. -/
def coverage_is_valid (fz : ℚ) (r : ConduitRow) : ConduitRow :=
  { r with valCoverage := some (boolToInt
      (oLe r.inletGroundCover (some (r.inletNodeInvert - fz)) &&
        oLe r.outletGroundCover (some (r.outletNodeInvert - fz)))) }

/-- The enrichment pipeline in the order `feature_engineering.py` runs
the `ConduitsData` steps. -/
def feature_pipeline (vminSlope : ℚ → ℚ → ℚ → Except PyErr Bool) (fz : ℚ)
    (nodes : List (String × ℚ)) (r0 : ConduitRow) : Except PyErr ConduitRow := do
  let r2 ← filling_is_valid (calculate_conduit_filling r0)
  let r4 ← slopes_is_valid vminSlope (velocity_is_valid r2)
  pure (coverage_is_valid fz (depth_is_valid (inlet_ground_cover
    (calculate_max_depth (slope_per_mile (conduits_max_depth nodes r4))))))

lemma filling_is_valid_shape {r r' : ConduitRow} (h : filling_is_valid r = .ok r') :
    ∃ b, r' = { r with valMaxFill := some (boolToInt b) } := by
  unfold filling_is_valid at h
  cases hf : r.filling with
  | none => rw [hf] at h; exact Except.noConfusion h
  | some f =>
    rw [hf] at h
    unfold validate_fillingE max_fillingQ at h
    by_cases hd : 0.2 ≤ r.geom1 ∧ r.geom1 ≤ 2
    · rw [if_pos hd] at h
      refine ⟨decide (f ≤ 0.827 * r.geom1), ?_⟩
      simpa [Bind.bind, Except.bind, pure, Except.pure] using h.symm
    · rw [if_neg hd] at h
      exact Except.noConfusion h

lemma slopes_is_valid_shape {vms : ℚ → ℚ → ℚ → Except PyErr Bool} {r r' : ConduitRow}
    (h : slopes_is_valid vms r = .ok r') :
    ∃ b₁ b₂,
      r' = { r with valMaxSlope := some (boolToInt b₁), valMinSlope := some (boolToInt b₂) } := by
  unfold slopes_is_valid at h
  cases hf : r.filling with
  | none => rw [hf] at h; exact Except.noConfusion h
  | some f =>
    rw [hf] at h
    simp only [Bind.bind, Except.bind] at h
    cases h1 : validate_max_slopeE (r.slopeFtPerFt * 1000) r.geom1 with
    | error e => rw [h1] at h; exact Except.noConfusion h
    | ok b₁ =>
      rw [h1] at h
      simp only at h
      cases h2 : vms (r.slopeFtPerFt * 1000) f r.geom1 with
      | error e =>
        rw [h2] at h
        exact Except.noConfusion h
      | ok b₂ =>
        rw [h2] at h
        refine ⟨b₁, b₂, ?_⟩
        simpa [Bind.bind, Except.bind, pure, Except.pure] using h.symm

lemma calculate_max_depth_shape (r : ConduitRow) :
    ∃ v, calculate_max_depth r = { r with outletMaxDepth := v } := by
  unfold calculate_max_depth
  split
  · exact ⟨some _, rfl⟩
  · exact ⟨r.outletMaxDepth, rfl⟩

/-- C9: whenever the enrichment pipeline completes on a row, each of the
seven validity flags is written as exactly `0` or `1` by its step, and
every later step leaves it untouched (the final row carries the value
the writing step produced). -/
theorem enrichment_validity_flags_binary
    (vminSlope : ℚ → ℚ → ℚ → Except PyErr Bool) (fz : ℚ)
    (nodes : List (String × ℚ)) (r0 rfin : ConduitRow)
    (h : feature_pipeline vminSlope fz nodes r0 = .ok rfin) :
    ∃ r2 r4 : ConduitRow,
      filling_is_valid (calculate_conduit_filling r0) = .ok r2 ∧
      slopes_is_valid vminSlope (velocity_is_valid r2) = .ok r4 ∧
      rfin = coverage_is_valid fz (depth_is_valid (inlet_ground_cover
        (calculate_max_depth (slope_per_mile (conduits_max_depth nodes r4))))) ∧
      (isBin r2.valMaxFill ∧ rfin.valMaxFill = r2.valMaxFill) ∧
      (isBin (velocity_is_valid r2).valMaxV ∧ rfin.valMaxV = (velocity_is_valid r2).valMaxV) ∧
      (isBin (velocity_is_valid r2).valMinV ∧ rfin.valMinV = (velocity_is_valid r2).valMinV) ∧
      (isBin r4.valMaxSlope ∧ rfin.valMaxSlope = r4.valMaxSlope) ∧
      (isBin r4.valMinSlope ∧ rfin.valMinSlope = r4.valMinSlope) ∧
      (isBin rfin.valDepth) ∧ (isBin rfin.valCoverage) := by
  unfold feature_pipeline at h
  cases hfv : filling_is_valid (calculate_conduit_filling r0) with
  | error e =>
    rw [hfv] at h
    simp only [Bind.bind, Except.bind] at h
    exact Except.noConfusion h
  | ok r2 =>
    rw [hfv] at h
    simp only [Bind.bind, Except.bind] at h
    cases hsv : slopes_is_valid vminSlope (velocity_is_valid r2) with
    | error e =>
      rw [hsv] at h
      simp only [Except.bind] at h
      exact Except.noConfusion h
    | ok r4 =>
      rw [hsv] at h
      simp only [Except.bind, pure, Except.pure, Except.ok.injEq] at h
      have hrfin : rfin = coverage_is_valid fz (depth_is_valid (inlet_ground_cover
          (calculate_max_depth (slope_per_mile (conduits_max_depth nodes r4))))) := h.symm
      obtain ⟨b, hb⟩ := filling_is_valid_shape hfv
      obtain ⟨b₁, b₂, hb12⟩ := slopes_is_valid_shape hsv
      obtain ⟨v7, hv7⟩ := calculate_max_depth_shape (slope_per_mile (conduits_max_depth nodes r4))
      refine ⟨r2, r4, rfl, hsv, hrfin, ?_, ?_, ?_, ?_, ?_, ?_, ?_⟩
      · refine ⟨hb ▸ isBin_boolToInt b, ?_⟩
        rw [hrfin, hv7]
        simp [coverage_is_valid, depth_is_valid, inlet_ground_cover, slope_per_mile,
          conduits_max_depth, hb12, velocity_is_valid]
      · refine ⟨by simp [velocity_is_valid, isBin_boolToInt], ?_⟩
        rw [hrfin, hv7]
        simp [coverage_is_valid, depth_is_valid, inlet_ground_cover, slope_per_mile,
          conduits_max_depth, hb12, velocity_is_valid]
      · refine ⟨by simp [velocity_is_valid, isBin_boolToInt], ?_⟩
        rw [hrfin, hv7]
        simp [coverage_is_valid, depth_is_valid, inlet_ground_cover, slope_per_mile,
          conduits_max_depth, hb12, velocity_is_valid]
      · refine ⟨by simp [hb12, isBin_boolToInt], ?_⟩
        rw [hrfin, hv7]
        simp [coverage_is_valid, depth_is_valid, inlet_ground_cover, slope_per_mile,
          conduits_max_depth]
      · refine ⟨by simp [hb12, isBin_boolToInt], ?_⟩
        rw [hrfin, hv7]
        simp [coverage_is_valid, depth_is_valid, inlet_ground_cover, slope_per_mile,
          conduits_max_depth]
      · rw [hrfin]
        simp [coverage_is_valid, depth_is_valid, isBin_boolToInt]
      · rw [hrfin]
        simp [coverage_is_valid, isBin_boolToInt]

/-! ### A concrete enrichment run -/

/-- A `validate_min_slope` oracle for the concrete run. -/
def vms_example : ℚ → ℚ → ℚ → Except PyErr Bool := fun _ _ _ => .ok true

/-- A one-node node table (the outlet node is deliberately missing, so
the NaN fallback path of `calculate_max_depth` is exercised). -/
def nodes_example : List (String × ℚ) := [("J1", 2)]

/-- A concrete input row: diameter 1 m, 50% max filling fraction. -/
def row_example : ConduitRow :=
  { geom1 := 1, maxDPerc := 1 / 2, maxV := 1, slopeFtPerFt := 1 / 100, length := 100,
    inletNode := "J1", outletNode := "J2", inletNodeInvert := 10, outletNodeInvert := 9 }

/-- The enriched row the pipeline produces from `row_example`. -/
def rowFinal_example : ConduitRow :=
  { geom1 := 1, maxDPerc := 1 / 2, maxV := 1, slopeFtPerFt := 1 / 100, length := 100,
    inletNode := "J1", outletNode := "J2", inletNodeInvert := 10, outletNodeInvert := 9,
    filling := some (1 / 2), valMaxFill := some 1, valMaxV := some 1, valMinV := some 1,
    valMaxSlope := some 1, valMinSlope := some 1, slopePerMile := some 10,
    inletMaxDepth := some 2, outletMaxDepth := some 1, inletGroundCover := some 8,
    outletGroundCover := some 8, valDepth := some 1, valCoverage := some 0 }

lemma max_slope_tableQ_one : max_slope_tableQ 1 = some (17525 / 654) := by
  unfold max_slope_tableQ
  rw [if_neg (by norm_num), if_neg (by norm_num), if_neg (by norm_num), if_neg (by norm_num),
    if_neg (by norm_num), if_neg (by norm_num), if_neg (by norm_num), if_neg (by norm_num),
    if_pos rfl]
  unfold mirTableVal
  rw [show mirMaxSlope 1 1 = some (4, 701) from by decide]
  simp only [Option.map_some']
  norm_num

set_option maxHeartbeats 2000000 in
lemma feature_pipeline_example :
    feature_pipeline vms_example (6 / 5) nodes_example row_example = .ok rowFinal_example := by
  have hin : List.lookup "J1" [("J1", (2 : ℚ))] = some 2 := rfl
  have hout : List.lookup "J2" [("J1", (2 : ℚ))] = none := rfl
  norm_num [feature_pipeline, calculate_conduit_filling, filling_is_valid, validate_fillingE,
    max_fillingQ, velocity_is_valid, validate_max_velocity, validate_min_velocity, max_velocity,
    min_velocity, slopes_is_valid, validate_max_slopeE, max_slope_tableQ_one, vms_example,
    conduits_max_depth, nodes_example, hin, hout, slope_per_mile, calculate_max_depth,
    inlet_ground_cover, depth_is_valid, coverage_is_valid, oLe, boolToInt, max_depth_value,
    row_example, rowFinal_example, Bind.bind, Except.bind, Pure.pure, Except.pure]

/-- Witness for `enrichment_validity_flags_binary` on the concrete run
`feature_pipeline_example`. -/
theorem enrichment_validity_flags_binary_witness :
    ∃ r2 r4 : ConduitRow,
      filling_is_valid (calculate_conduit_filling row_example) = .ok r2 ∧
      slopes_is_valid vms_example (velocity_is_valid r2) = .ok r4 ∧
      rowFinal_example = coverage_is_valid (6 / 5) (depth_is_valid (inlet_ground_cover
        (calculate_max_depth (slope_per_mile (conduits_max_depth nodes_example r4))))) ∧
      (isBin r2.valMaxFill ∧ rowFinal_example.valMaxFill = r2.valMaxFill) ∧
      (isBin (velocity_is_valid r2).valMaxV ∧
        rowFinal_example.valMaxV = (velocity_is_valid r2).valMaxV) ∧
      (isBin (velocity_is_valid r2).valMinV ∧
        rowFinal_example.valMinV = (velocity_is_valid r2).valMinV) ∧
      (isBin r4.valMaxSlope ∧ rowFinal_example.valMaxSlope = r4.valMaxSlope) ∧
      (isBin r4.valMinSlope ∧ rowFinal_example.valMinSlope = r4.valMinSlope) ∧
      (isBin rowFinal_example.valDepth) ∧ (isBin rowFinal_example.valCoverage) :=
  enrichment_validity_flags_binary vms_example (6 / 5) nodes_example row_example
    rowFinal_example feature_pipeline_example

end Stormwater

